import Mathlib

/-!
Verification of the dirselect navigation-and-viewport engine
(src/dirselect.go, src/types.go, src/id.go) against its
natural-language specification.

The Go model is embedded shallowly: absolute filesystem paths become
lists of components, Go ints become Lean Int, slice indexing with a
possibly out-of-range index becomes an explicit panic outcome, and the
Bubble Tea message loop becomes a step function from a model state and
a message to an outcome (a new state plus a command, or a runtime
panic).
-/

namespace Dirselect

/-- An absolute filesystem path, modelled as its list of components
below the filesystem root: "/home/u" is ["home", "u"] and the root "/"
is []. -/
abbrev Path := List String

/-- filepath.Dir on an absolute path: drops the last component;
filepath.Dir of the root is the root itself. -/
def parentDir (p : Path) : Path := p.dropLast

/-- filepath.Join of an absolute directory and one listing entry,
including the Clean step filepath.Join performs: joining ".." moves to
the parent directory, any other entry name is appended as a single
component (directory-entry names contain no separator). -/
def goJoin (p : Path) (name : String) : Path :=
  if name = ".." then p.dropLast else p ++ [name]

/-- Indexing a Go slice with an int index. A negative or too-large
index is a runtime panic in Go, modelled as Option.none. -/
def goIndex {α : Type} (xs : List α) (i : Int) : Option α :=
  if i < 0 then Option.none else xs.get? i.toNat

/-- The model state of src/dirselect.go (struct Model plus the
package-level lineNumberStack). The Go package keeps lineNumberStack
as a package-level variable alongside the model; for a single model
instance its behaviour is identical to a field, so it is embedded here
as one, with the top of the stack at the head of the list. The static
key-binding table, the cursor glyph and the log-file handle carry no
transition-relevant state and are omitted; key bindings are abstracted
into the Key inductive. -/
structure Model where
  id : Int
  lineNumber : Int
  SelectedDirs : List Path
  dirListing : List String
  homeDir : Path
  currentDir : Path
  viewHeight : Int
  viewMin : Int
  viewMax : Int
  lineNumberStack : List Int
  deriving DecidableEq

/-- The model produced by New(): cursor 0, no selections, empty
listing, current directory = home directory, empty stack; the
viewport fields start at their Go zero values because New() does not
set them. -/
def newModel (i : Int) (hd : Path) : Model :=
  { id := i
    lineNumber := 0
    SelectedDirs := []
    dirListing := []
    homeDir := hd
    currentDir := hd
    viewHeight := 0
    viewMin := 0
    viewMax := 0
    lineNumberStack := [] }

/-- The user actions of the key map (keyMap in src/types.go); a jump
key carries the digit parsed from the pressed key by strconv.Atoi. -/
inductive Key where
  | up
  | down
  | back
  | explore
  | jump (digit : Nat)
  | jumpToHome
  | toggleSelect
  | quit
  deriving DecidableEq

/-- The messages consumed by Model.Update: a completed directory load
(readDirMsg), a key press, or the error value that the readDir command
returns as the message when os.ReadDir fails. -/
inductive Msg where
  | readDirMsg (id : Int) (entries : List String)
  | key (k : Key)
  | errMsg
  deriving DecidableEq

/-- The commands Model.Update can return: nil, a readDir load request
for a path, or tea.Quit. -/
inductive Cmd where
  | none
  | readDir (path : Path)
  | quit
  deriving DecidableEq

/-- The outcome of one Update step: a new model and a command, or a Go
runtime panic. -/
inductive Outcome where
  | ok (m : Model) (c : Cmd)
  | panic (reason : String)
  deriving DecidableEq

/-- slices.Index: the first index of dir in sel, or -1 when absent. -/
def slicesIndex : List Path → Path → Int
  | [], _ => -1
  | q :: rest, dir =>
    if q = dir then 0
    else
      let r := slicesIndex rest dir
      if r = -1 then -1 else r + 1

/-- The toggleSelect branch body on the selection list: if dir is
present (slices.Index finds it) remove it with slices.Delete(pos,
pos+1), otherwise append it. No capacity check is performed. -/
def toggleSel (sel : List Path) (dir : Path) : List Path :=
  let pos := slicesIndex sel dir
  if pos ≠ -1 then sel.eraseIdx pos.toNat else sel ++ [dir]

/-- Model.dirAtPoint: filepath.Join(m.currentDir,
m.dirListing[m.lineNumber]); the indexing panics (Option.none) when
the cursor is outside the listing. -/
def dirAtPoint (m : Model) : Option Path :=
  (goIndex m.dirListing m.lineNumber).map (fun nm => goJoin m.currentDir nm)

/-- Model.back: set currentDir to its parent, then restoreLineNumber
(pop the stack into lineNumber; popping an empty stack panics), and
issue a load for the new current directory. -/
def backOp (m : Model) : Outcome :=
  match m.lineNumberStack with
  | [] => Outcome.panic "empty lineNumberStack"
  | v :: rest =>
    let cur := parentDir m.currentDir
    Outcome.ok
      { m with currentDir := cur, lineNumber := v, lineNumberStack := rest }
      (Cmd.readDir cur)

/-- Model.explore: set currentDir to the directory at the cursor, then
saveLineNumber (push the old cursor, reset the cursor to 0), and issue
a load for the new current directory. -/
def exploreOp (m : Model) : Outcome :=
  match dirAtPoint m with
  | Option.none => Outcome.panic "index out of range"
  | Option.some dir =>
    Outcome.ok
      { m with currentDir := dir
               lineNumberStack := m.lineNumber :: m.lineNumberStack
               lineNumber := 0 }
      (Cmd.readDir dir)

/-- The down-key branch: increment the cursor, clamp it to
len(dirListing)-1, and shift the window down by one when the new
cursor exceeds viewMax. -/
def downStep (m : Model) : Model :=
  let ln0 := m.lineNumber + 1
  let ln := if ln0 > (m.dirListing.length : Int) - 1
            then (m.dirListing.length : Int) - 1 else ln0
  if ln > m.viewMax then
    { m with lineNumber := ln, viewMin := m.viewMin + 1, viewMax := m.viewMax + 1 }
  else
    { m with lineNumber := ln }

/-- The up-key branch: decrement the cursor, clamp it to 0, and shift
the window up by one when the new cursor is below viewMin. -/
def upStep (m : Model) : Model :=
  let ln0 := m.lineNumber - 1
  let ln := if ln0 < 0 then 0 else ln0
  if ln < m.viewMin then
    { m with lineNumber := ln, viewMin := m.viewMin - 1, viewMax := m.viewMax - 1 }
  else
    { m with lineNumber := ln }

/-- The readDirMsg branch body: install the entries and reset the
viewport (viewHeight = min(10, len), viewMin = 0, viewMax =
viewHeight - 1). The cursor is not touched. -/
def applyListing (m : Model) (es : List String) : Model :=
  let vh : Int := min 10 (es.length : Int)
  { m with dirListing := es, viewHeight := vh, viewMin := 0, viewMax := vh - 1 }

/-- len(strings.Split(s, "/")) for the string form of an absolute path
strictly below the filesystem root: the leading "/" contributes one
empty component, so the count is the number of path components plus
one. -/
def splitDepth (p : Path) : Int := (p.length : Int) + 1

/-- Model.Update of src/dirselect.go, case by case. Unmatched
messages (in particular the error value a failed load returns as its
message) fall through the type switch to `return m, nil`. -/
def update (m : Model) (msg : Msg) : Outcome :=
  match msg with
  | Msg.readDirMsg i es =>
    if i = m.id then Outcome.ok (applyListing m es) Cmd.none
    else Outcome.ok m Cmd.none
  | Msg.errMsg => Outcome.ok m Cmd.none
  | Msg.key k =>
    match k with
    | Key.back =>
      if m.lineNumberStack.length = 0 then Outcome.ok m Cmd.none
      else backOp m
    | Key.down => Outcome.ok (downStep m) Cmd.none
    | Key.explore =>
      if m.lineNumber = 0 ∧ m.lineNumberStack.length = 0 then Outcome.ok m Cmd.none
      else if m.lineNumber = 0 then backOp m
      else exploreOp m
    | Key.jump d =>
      -- strconv.Atoi(msg.String()) always succeeds for a digit key;
      -- m.SelectedDirs[index] panics when the index is out of range.
      match m.SelectedDirs.get? d with
      | Option.none => Outcome.panic "index out of range"
      | Option.some selection =>
        let cur := parentDir selection
        Outcome.ok
          { m with currentDir := cur
                   lineNumberStack :=
                     List.replicate (splitDepth selection - splitDepth m.homeDir - 1).toNat 0 }
          (Cmd.readDir cur)
    | Key.jumpToHome =>
      Outcome.ok
        { m with currentDir := m.homeDir, lineNumber := 0, lineNumberStack := [] }
        (Cmd.readDir m.homeDir)
    | Key.toggleSelect =>
      if m.lineNumber = 0 then Outcome.ok m Cmd.none
      else
        match dirAtPoint m with
        | Option.none => Outcome.panic "index out of range"
        | Option.some dir =>
          Outcome.ok { m with SelectedDirs := toggleSel m.SelectedDirs dir } Cmd.none
    | Key.up => Outcome.ok (upStep m) Cmd.none
    | Key.quit => Outcome.ok m Cmd.quit

/-- Projection of an outcome onto its model, Option.none on panic. -/
def okModel : Outcome → Option Model
  | Outcome.ok m _ => Option.some m
  | Outcome.panic _ => Option.none

/-- Run a sequence of messages, stopping at the first panic. -/
def runO (m : Model) : List Msg → Outcome
  | [] => Outcome.ok m Cmd.none
  | msg :: rest =>
    match update m msg with
    | Outcome.ok m' _ => runO m' rest
    | Outcome.panic s => Outcome.panic s

/-- The model reached after a sequence of messages, Option.none when a
panic occurred along the way. -/
def runSt (m : Model) (msgs : List Msg) : Option Model :=
  okModel (runO m msgs)

/-! ## Helper lemmas about the selection-list operations -/

lemma slicesIndex_of_not_mem (sel : List Path) (p : Path) (h : p ∉ sel) :
    slicesIndex sel p = -1 := by
  induction sel with
  | nil => rfl
  | cons q rest ih =>
    have hq : ¬(q = p) := fun he => h (he ▸ List.mem_cons_self q rest)
    have hr : p ∉ rest := fun hm => h (List.mem_cons_of_mem q hm)
    simp [slicesIndex, hq, ih hr]

lemma slicesIndex_append_self (sel : List Path) (p : Path) (h : p ∉ sel) :
    slicesIndex (sel ++ [p]) p = (sel.length : Int) := by
  induction sel with
  | nil => simp [slicesIndex]
  | cons q rest ih =>
    have hq : ¬(q = p) := fun he => h (he ▸ List.mem_cons_self q rest)
    have hr : p ∉ rest := fun hm => h (List.mem_cons_of_mem q hm)
    have hlen : ¬((rest.length : Int) = -1) := by omega
    simp [slicesIndex, hq, ih hr, hlen]

lemma eraseIdx_concat_self (sel : List Path) (p : Path) :
    (sel ++ [p]).eraseIdx sel.length = sel := by
  induction sel with
  | nil => rfl
  | cons q rest ih => simp [List.eraseIdx, ih]

lemma toggleSel_of_not_mem (sel : List Path) (p : Path) (h : p ∉ sel) :
    toggleSel sel p = sel ++ [p] := by
  simp [toggleSel, slicesIndex_of_not_mem sel p h]

/-! ## Claim theorems -/

/-- Claim C1. The claim says an out-of-bounds jump index is a no-op
with no error or panic; on the code, a jump whose digit index is out
of bounds of SelectedDirs evaluates m.SelectedDirs[index] on a slice
that is too short and panics (Go index-out-of-range runtime error),
crashing the program instead of being a no-op. -/
theorem C1_out_of_range_jump_panics (m : Model) (d : Nat)
    (h : m.SelectedDirs.length ≤ d) :
    update m (Msg.key (Key.jump d)) = Outcome.panic "index out of range" := by
  have hnone : m.SelectedDirs[d]? = Option.none := by
    simpa using List.get?_eq_none.mpr h
  simp [update, hnone]

/-- Witness for C1: a fresh model with an empty Selection Set panics
on the digit key 0. -/
theorem C1_witness :
    (newModel 1 ["h"]).SelectedDirs.length ≤ 0 ∧
      update (newModel 1 ["h"]) (Msg.key (Key.jump 0)) =
        Outcome.panic "index out of range" :=
  ⟨by decide, C1_out_of_range_jump_panics (newModel 1 ["h"]) 0 (by decide)⟩

/-- A home directory listing with 11 real subdirectories. -/
def c2entries : List String :=
  ["..", "d1", "d2", "d3", "d4", "d5", "d6", "d7", "d8", "d9", "d10", "d11"]

/-- Eleven cursor-down-and-toggle pairs after the initial load: each
toggle selects a fresh directory. -/
def c2trace : List Msg :=
  [Msg.readDirMsg 1 c2entries] ++
    (List.replicate 11 [Msg.key Key.down, Msg.key Key.toggleSelect]).flatten

/-- Counterexample to C2: starting from the empty Selection Set,
eleven toggle-select actions on eleven distinct directories yield a
Selection Set of size 11; the claimed capacity bound of 10 does not
hold and the 11th addition is not a no-op. -/
theorem C2_counterexample :
    ((runSt (newModel 1 ["h"]) c2trace).map fun s => s.SelectedDirs.length) =
        Option.some 11 ∧ ¬(11 ≤ 10) := by
  decide

/-- Claim C2 as amended: a toggle of a path not currently in the
Selection Set always appends it, regardless of the current size —
the code imposes no capacity bound, so after n toggle additions of
distinct paths the set has exactly n elements. -/
theorem C2_amended_toggle_always_appends (sel : List Path) (p : Path)
    (h : p ∉ sel) : toggleSel sel p = sel ++ [p] :=
  toggleSel_of_not_mem sel p h

/-- Witness for the amended C2. -/
theorem C2_witness :
    (["d"] : Path) ∉ ([] : List Path) ∧ toggleSel [] ["d"] = [["d"]] :=
  ⟨by decide, C2_amended_toggle_always_appends [] ["d"] (by decide)⟩

/-- Claim C9. Toggle is self-inverse on fresh paths: toggling a path
not in the Selection Set and then toggling it again restores the
original list, in content and order (the second toggle finds the path
at the appended position and slices.Delete removes exactly it). -/
theorem C9_toggle_self_inverse (sel : List Path) (p : Path)
    (h1 : p ∉ sel) (h2 : sel.length < 10) :
    toggleSel (toggleSel sel p) p = sel := by
  rw [toggleSel_of_not_mem sel p h1]
  have hidx := slicesIndex_append_self sel p h1
  have hne : ¬((sel.length : Int) = -1) := by omega
  simp [toggleSel, hidx, hne, eraseIdx_concat_self]

/-- Witness for C9. -/
theorem C9_witness :
    (["d"] : Path) ∉ ([] : List Path) ∧ ([] : List Path).length < 10 ∧
      toggleSel (toggleSel [] ["d"]) ["d"] = [] :=
  ⟨by decide, by decide, C9_toggle_self_inverse [] ["d"] (by decide) (by decide)⟩

/-- Claim C10. A failed directory load returns the error value as the
message; Update's type switch matches neither readDirMsg nor a key
message, so it falls through to `return m, nil`: the model (current
directory, listing, cursor, viewport, stack, Selection Set) is
unchanged, no load is issued and no quit command is produced — the
failure is non-fatal and the session keeps accepting input. -/
theorem C10_load_failure_noop (m : Model) :
    update m Msg.errMsg = Outcome.ok m Cmd.none := rfl

/-- A trace with two overlapping load requests from one model (id 1,
home "/h"). After the initial load of ["..", "a"], the user moves the
cursor to "a" and descends: explore issues request g1 for /h/a. Before
g1 resolves, the user ascends: back issues request g2 for /h. Then
g2's result ["..", "a"] arrives, followed by g1's stale result
["..", "zzz"] (the listing of /h/a). -/
def c3trace : List Msg :=
  [Msg.readDirMsg 1 ["..", "a"], Msg.key Key.down, Msg.key Key.explore,
   Msg.key Key.back, Msg.readDirMsg 1 ["..", "a"], Msg.readDirMsg 1 ["..", "zzz"]]

/-- Counterexample to C3: both requests carry the same model id, so
the stale first-issued result is applied when it arrives last — the
final state shows current directory /h with the listing of /h/a
(["..", "zzz"]), not the most recently requested listing
(["..", "a"]). The claimed discard of the stale result does not
happen. -/
theorem C3_counterexample :
    ((runSt (newModel 1 ["h"]) c3trace).map fun s => (s.currentDir, s.dirListing)) =
        Option.some ((["h"] : Path), ["..", "zzz"]) ∧
      (["..", "zzz"] : List String) ≠ ["..", "a"] := by
  decide

/-- Claim C3 as amended: the id on a readDirMsg is the model's fixed
instance id (assigned once by nextID at creation and never incremented
per request), so the id comparison only discards results addressed to
a different model instance. Every result carrying this model's id is
applied on arrival — for two overlapping requests from the same model
the later-arriving result always wins, even when it belongs to the
earlier-issued (stale) request. -/
theorem C3_amended_id_check_only (m : Model) (es1 es2 es : List String) (i : Int) :
    ((runSt m [Msg.readDirMsg m.id es1, Msg.readDirMsg m.id es2]).map
        fun s => s.dirListing) = Option.some es2 ∧
      (i ≠ m.id → update m (Msg.readDirMsg i es) = Outcome.ok m Cmd.none) := by
  constructor
  · simp [runSt, runO, update, applyListing, okModel]
  · intro hne
    simp [update, hne]

/-- Witness for the amended C3. -/
theorem C3_witness :
    ((runSt (newModel 3 ["h"])
          [Msg.readDirMsg 3 ["..", "p"], Msg.readDirMsg 3 ["..", "q"]]).map
        fun s => s.dirListing) = Option.some ["..", "q"] ∧
      update (newModel 3 ["h"]) (Msg.readDirMsg 4 ["..", "r"]) =
        Outcome.ok (newModel 3 ["h"]) Cmd.none :=
  ⟨(C3_amended_id_check_only (newModel 3 ["h"]) ["..", "p"] ["..", "q"] ["..", "r"] 4).1,
   (C3_amended_id_check_only (newModel 3 ["h"]) ["..", "p"] ["..", "q"] ["..", "r"] 4).2
     (by decide)⟩

/-- Modelled from the spec's words (Cursor and Viewport Controller,
section 4.2), for comparison with the code's down-step: cursor' =
min(cursor + 1, len(entries) - 1); when viewMax < len(entries) - 1 and
cursor' > (viewMin + viewMax) / 2, shift the window down by one
(midpoint recentering). Go integer division truncates toward zero;
every use of this definition below is on nonnegative values, where it
agrees with Lean's Int division. -/
def specMoveDown (m : Model) : Model :=
  let c := min (m.lineNumber + 1) ((m.dirListing.length : Int) - 1)
  if m.viewMax < (m.dirListing.length : Int) - 1 ∧ c > (m.viewMin + m.viewMax) / 2 then
    { m with lineNumber := c, viewMin := m.viewMin + 1, viewMax := m.viewMax + 1 }
  else
    { m with lineNumber := c }

/-- A loaded 20-entry listing with the window at [0, 9] and the cursor
at 5 — past the midpoint 4 after one more step down, with more content
below. -/
def c4m : Model :=
  { newModel 1 ["h"] with
    dirListing := ["..", "b1", "b2", "b3", "b4", "b5", "b6", "b7", "b8", "b9",
                   "b10", "b11", "b12", "b13", "b14", "b15", "b16", "b17", "b18", "b19"]
    viewHeight := 10
    viewMin := 0
    viewMax := 9
    lineNumber := 5 }

/-- Counterexample to C4: a cursor-down from c4m moves the cursor to
6, which is past the window midpoint (0 + 9) / 2 = 4 while more
content lies below (viewMax 9 < 19), so the claimed midpoint rule
shifts the window to [1, 10]; the code leaves it at [0, 9] because the
code's rule is edge-triggered (shift only when the cursor passes
viewMax). -/
theorem C4_counterexample :
    ((okModel (update c4m (Msg.key Key.down))).map
        fun s => (s.lineNumber, s.viewMin, s.viewMax)) =
        Option.some ((6 : Int), (0 : Int), (9 : Int)) ∧
      ((specMoveDown c4m).lineNumber, (specMoveDown c4m).viewMin,
        (specMoveDown c4m).viewMax) = ((6 : Int), (1 : Int), (10 : Int)) ∧
      c4m.viewMax < (c4m.dirListing.length : Int) - 1 ∧
      (6 : Int) > (c4m.viewMin + c4m.viewMax) / 2 ∧
      (0 : Int) ≠ 1 := by
  decide

/-- Claim C4 as amended: cursor-down sets cursor to min(cursor + 1,
len(entries) - 1) and shifts the window down by one exactly when the
new cursor exceeds viewMax (edge-triggered scrolling, not midpoint
recentering); symmetrically, cursor-up sets cursor to max(cursor - 1,
0) and shifts the window up by one exactly when the new cursor is
below viewMin. -/
theorem C4_amended_edge_triggered (m md mu : Model)
    (hd : update m (Msg.key Key.down) = Outcome.ok md Cmd.none)
    (hu : update m (Msg.key Key.up) = Outcome.ok mu Cmd.none) :
    (md.lineNumber = min (m.lineNumber + 1) ((m.dirListing.length : Int) - 1) ∧
      ((md.viewMin = m.viewMin + 1 ∧ md.viewMax = m.viewMax + 1) ∨
        (md.viewMin = m.viewMin ∧ md.viewMax = m.viewMax)) ∧
      (md.viewMin = m.viewMin + 1 ↔ md.lineNumber > m.viewMax)) ∧
    (mu.lineNumber = max (m.lineNumber - 1) 0 ∧
      ((mu.viewMin = m.viewMin - 1 ∧ mu.viewMax = m.viewMax - 1) ∨
        (mu.viewMin = m.viewMin ∧ mu.viewMax = m.viewMax)) ∧
      (mu.viewMin = m.viewMin - 1 ↔ mu.lineNumber < m.viewMin)) := by
  simp only [update, Outcome.ok.injEq] at hd hu
  obtain ⟨hmd, -⟩ := hd
  obtain ⟨hmu, -⟩ := hu
  subst hmd
  subst hmu
  constructor
  · simp only [downStep]
    split_ifs <;> simp <;> omega
  · simp only [upStep]
    split_ifs <;> simp <;> omega

/-- The trivially true message predicate: reachability under AnyMsg
allows every key press, load completion and load failure. -/
def AnyMsg (_ : Msg) : Prop := True

/-- States reachable from m0 by messages satisfying P, along
non-panicking update steps. -/
inductive ReachP (P : Msg → Prop) (m0 : Model) : Model → Prop where
  | refl : ReachP P m0 m0
  | tail {m m' : Model} {msg : Msg} {c : Cmd} (h : ReachP P m0 m) (hp : P msg)
      (hs : update m msg = Outcome.ok m' c) : ReachP P m0 m'

/-- Every update step either leaves the viewport bounds unchanged,
keeps their width, or resets them to a width of at most 10. -/
lemma width_step (m m' : Model) (msg : Msg) (c : Cmd)
    (hs : update m msg = Outcome.ok m' c) :
    m'.viewMax - m'.viewMin + 1 ≤ 10 ∨
      (m'.viewMin = m.viewMin ∧ m'.viewMax = m.viewMax) ∨
      m'.viewMax - m'.viewMin = m.viewMax - m.viewMin := by
  cases msg with
  | readDirMsg i es =>
    simp only [update] at hs
    split at hs <;> simp only [Outcome.ok.injEq] at hs <;>
      obtain ⟨h1, -⟩ := hs <;> subst h1
    · left
      simp [applyListing]
    · right; left; exact ⟨rfl, rfl⟩
  | errMsg =>
    simp only [update, Outcome.ok.injEq] at hs
    obtain ⟨h1, -⟩ := hs
    subst h1
    right; left; exact ⟨rfl, rfl⟩
  | key k =>
    cases k with
    | back =>
      simp only [update] at hs
      split at hs
      · simp only [Outcome.ok.injEq] at hs
        obtain ⟨h1, -⟩ := hs
        subst h1
        right; left; exact ⟨rfl, rfl⟩
      · cases hstk : m.lineNumberStack with
        | nil => simp [backOp, hstk] at hs
        | cons v rest =>
          simp only [backOp, hstk, Outcome.ok.injEq] at hs
          obtain ⟨h1, -⟩ := hs
          subst h1
          right; left; exact ⟨rfl, rfl⟩
    | down =>
      simp only [update, Outcome.ok.injEq] at hs
      obtain ⟨h1, -⟩ := hs
      subst h1
      simp only [downStep]
      split_ifs <;> simp
    | explore =>
      simp only [update] at hs
      split at hs
      · simp only [Outcome.ok.injEq] at hs
        obtain ⟨h1, -⟩ := hs
        subst h1
        right; left; exact ⟨rfl, rfl⟩
      · split at hs
        · cases hstk : m.lineNumberStack with
          | nil => simp [backOp, hstk] at hs
          | cons v rest =>
            simp only [backOp, hstk, Outcome.ok.injEq] at hs
            obtain ⟨h1, -⟩ := hs
            subst h1
            right; left; exact ⟨rfl, rfl⟩
        · cases hap : dirAtPoint m with
          | none => simp [exploreOp, hap] at hs
          | some dir =>
            simp only [exploreOp, hap, Outcome.ok.injEq] at hs
            obtain ⟨h1, -⟩ := hs
            subst h1
            right; left; exact ⟨rfl, rfl⟩
    | jump d =>
      simp only [update] at hs
      cases hg : m.SelectedDirs.get? d with
      | none =>
        rw [hg] at hs
        simp at hs
      | some selection =>
        rw [hg] at hs
        simp only [Outcome.ok.injEq] at hs
        obtain ⟨h1, -⟩ := hs
        subst h1
        right; left; exact ⟨rfl, rfl⟩
    | jumpToHome =>
      simp only [update, Outcome.ok.injEq] at hs
      obtain ⟨h1, -⟩ := hs
      subst h1
      right; left; exact ⟨rfl, rfl⟩
    | toggleSelect =>
      simp only [update] at hs
      split at hs
      · simp only [Outcome.ok.injEq] at hs
        obtain ⟨h1, -⟩ := hs
        subst h1
        right; left; exact ⟨rfl, rfl⟩
      · cases hap : dirAtPoint m with
        | none => simp [hap] at hs
        | some dir =>
          simp only [hap, Outcome.ok.injEq] at hs
          obtain ⟨h1, -⟩ := hs
          subst h1
          right; left; exact ⟨rfl, rfl⟩
    | up =>
      simp only [update, Outcome.ok.injEq] at hs
      obtain ⟨h1, -⟩ := hs
      subst h1
      simp only [upStep]
      split_ifs <;> simp
    | quit =>
      simp only [update, Outcome.ok.injEq] at hs
      obtain ⟨h1, -⟩ := hs
      subst h1
      right; left; exact ⟨rfl, rfl⟩

/-- The viewport width bound holds in every reachable state. -/
lemma width_reach (hd : Path) (i : Int) (m : Model)
    (h : ReachP AnyMsg (newModel i hd) m) :
    m.viewMax - m.viewMin + 1 ≤ 10 := by
  induction h with
  | refl => simp [newModel]
  | tail h hp hs ih =>
    rcases width_step _ _ _ _ hs with hw | ⟨h1, h2⟩ | hw <;> omega

/-- The cursor lies inside the viewport window and the window lies
inside the listing. -/
def GoodVP (m : Model) : Prop :=
  0 ≤ m.viewMin ∧ m.viewMin ≤ m.lineNumber ∧ m.lineNumber ≤ m.viewMax ∧
    m.viewMax ≤ (m.dirListing.length : Int) - 1

instance (m : Model) : Decidable (GoodVP m) := by
  unfold GoodVP
  infer_instance

/-- A 15-entry home listing for the C5 counterexample. -/
def e15 : List String :=
  ["..", "a1", "a2", "a3", "a4", "a5", "a6", "a7", "a8", "a9",
   "a10", "a11", "a12", "a13", "a14"]

/-- Load the 15-entry listing, move the cursor down 12 times (the
window follows to [3, 12]), descend into the entry at index 12 (the
cursor 12 is pushed on the stack), let the child load complete, ascend
(the saved cursor 12 is restored), and let the parent's load complete
(the viewport resets to [0, 9], the cursor is not touched). Every step
is a non-panicking update step, so the final state is reachable. -/
def c5trace : List Msg :=
  [Msg.readDirMsg 1 e15] ++ List.replicate 12 (Msg.key Key.down) ++
    [Msg.key Key.explore, Msg.readDirMsg 1 ["..", "x"], Msg.key Key.back,
     Msg.readDirMsg 1 e15]

set_option maxRecDepth 8000

/-- Counterexample to C5: the state reached by c5trace has cursor 12
with viewport [0, 9] — an ascend that restores a saved cursor position
followed by its load completion breaks viewMin <= cursor <= viewMax,
because the load resets the viewport without clamping the restored
cursor into it. -/
theorem C5_counterexample :
    ((runSt (newModel 1 ["h"]) c5trace).map
        fun s => (s.lineNumber, s.viewMin, s.viewMax)) =
        Option.some ((12 : Int), (0 : Int), (9 : Int)) ∧
      ¬((0 : Int) ≤ 12 ∧ (12 : Int) ≤ 9) := by
  decide

/-- Claim C5 as amended: the width bound viewMax - viewMin + 1 <= 10
does hold in every reachable state, and the containment viewMin <=
cursor <= viewMax is preserved by every cursor-down and cursor-up
action from a state where it holds (with the window inside the
listing); but it is not re-established by load completions — an ascend
restoring a saved cursor beyond the reset window leaves the cursor
outside [viewMin, viewMax], as the counterexample shows. -/
theorem C5_amended_width_and_moves :
    (∀ (hd : Path) (i : Int) (m : Model),
        ReachP AnyMsg (newModel i hd) m → m.viewMax - m.viewMin + 1 ≤ 10) ∧
    (∀ m md mu : Model, GoodVP m →
        update m (Msg.key Key.down) = Outcome.ok md Cmd.none →
        update m (Msg.key Key.up) = Outcome.ok mu Cmd.none →
        GoodVP md ∧ GoodVP mu) := by
  constructor
  · exact width_reach
  · intro m md mu hg hdn hup
    simp only [update, Outcome.ok.injEq] at hdn hup
    obtain ⟨h1, -⟩ := hdn
    obtain ⟨h2, -⟩ := hup
    subst h1
    subst h2
    obtain ⟨g1, g2, g3, g4⟩ := hg
    constructor
    · simp only [downStep]
      split_ifs <;> simp [GoodVP] <;> omega
    · simp only [upStep]
      split_ifs <;> simp [GoodVP] <;> omega

/-- A small loaded state for the C5 witness: 3 entries, window [0, 2],
cursor 1. -/
def c5w : Model :=
  { newModel 1 ["h"] with
    dirListing := ["..", "a", "b"], viewHeight := 3, viewMin := 0, viewMax := 2,
    lineNumber := 1 }

/-- Witness for the amended C5. -/
theorem C5_witness :
    ((newModel 1 ["h"]).viewMax - (newModel 1 ["h"]).viewMin + 1 ≤ 10) ∧
      (GoodVP { c5w with lineNumber := 2 } ∧ GoodVP { c5w with lineNumber := 0 }) :=
  ⟨C5_amended_width_and_moves.1 ["h"] 1 (newModel 1 ["h"]) ReachP.refl,
   C5_amended_width_and_moves.2 c5w { c5w with lineNumber := 2 }
     { c5w with lineNumber := 0 } (by decide) (by decide) (by decide)⟩

/-- A 6-entry parent listing; while the user is inside the child at
index 5, the parent shrinks to 3 entries. The trace: load the 6-entry
listing, move down 5 times, descend (cursor 5 is pushed), let the
child load complete, ascend (cursor 5 is restored), and let the
shrunken 3-entry parent load complete. -/
def c6trace : List Msg :=
  [Msg.readDirMsg 1 ["..", "a", "b", "c", "d", "e"]] ++
    List.replicate 5 (Msg.key Key.down) ++
    [Msg.key Key.explore, Msg.readDirMsg 1 [".."], Msg.key Key.back,
     Msg.readDirMsg 1 ["..", "a", "b"]]

/-- Claim C6 fails on the code: the reachable state after c6trace has
cursor 5 with a 3-entry listing, violating cursor < len(entries); the
next toggle-select (equally a descend) evaluates dirListing[5] and
panics with a Go index-out-of-range runtime error instead of never
indexing out of bounds. -/
theorem C6_cursor_out_of_bounds_panics :
    ((runSt (newModel 1 ["h"]) c6trace).map
        fun s => (s.lineNumber, s.dirListing.length)) =
        Option.some ((5 : Int), 3) ∧
      runO (newModel 1 ["h"]) (c6trace ++ [Msg.key Key.toggleSelect]) =
        Outcome.panic "index out of range" := by
  decide

/-- A small loaded state for the C4 witness: 3 entries, window [0, 2],
cursor 1. -/
def c4w : Model :=
  { newModel 1 ["h"] with
    dirListing := ["..", "a", "b"], viewHeight := 3, viewMin := 0, viewMax := 2,
    lineNumber := 1 }

/-- The result of a cursor-down from c4w. -/
def c4wd : Model := { c4w with lineNumber := 2 }

/-- The result of a cursor-up from c4w. -/
def c4wu : Model := { c4w with lineNumber := 0 }

/-- Witness for the amended C4. -/
theorem C4_witness :
    (c4wd.lineNumber = min (c4w.lineNumber + 1) ((c4w.dirListing.length : Int) - 1) ∧
      ((c4wd.viewMin = c4w.viewMin + 1 ∧ c4wd.viewMax = c4w.viewMax + 1) ∨
        (c4wd.viewMin = c4w.viewMin ∧ c4wd.viewMax = c4w.viewMax)) ∧
      (c4wd.viewMin = c4w.viewMin + 1 ↔ c4wd.lineNumber > c4w.viewMax)) ∧
    (c4wu.lineNumber = max (c4w.lineNumber - 1) 0 ∧
      ((c4wu.viewMin = c4w.viewMin - 1 ∧ c4wu.viewMax = c4w.viewMax - 1) ∨
        (c4wu.viewMin = c4w.viewMin ∧ c4wu.viewMax = c4w.viewMax)) ∧
      (c4wu.viewMin = c4w.viewMin - 1 ↔ c4wu.lineNumber < c4w.viewMin)) :=
  C4_amended_edge_triggered c4w c4wd c4wu (by decide) (by decide)

/-- Claim C7. Round-trip cursor restoration: from a state with the
cursor on a child entry (cursor > 0, in bounds, not the sentinel),
descending (explore pushes the cursor and issues the child load),
letting the child load complete, ascending (back pops the saved
cursor and issues the parent load), and letting the parent load
complete with the unchanged parent listing leaves the cursor at the
index the child occupied in the parent listing, with the current
directory and listing restored. -/
theorem C7_round_trip (m : Model) (ces : List String)
    (h1 : 0 < m.lineNumber)
    (h2 : m.lineNumber < (m.dirListing.length : Int))
    (h3 : goIndex m.dirListing m.lineNumber ≠ Option.some "..") :
    ((runSt m [Msg.key Key.explore, Msg.readDirMsg m.id ces, Msg.key Key.back,
          Msg.readDirMsg m.id m.dirListing]).map
        fun s => (s.lineNumber, s.currentDir, s.dirListing)) =
      Option.some (m.lineNumber, m.currentDir, m.dirListing) := by
  have hnneg : ¬(m.lineNumber < 0) := by omega
  have hlt : m.lineNumber.toNat < m.dirListing.length := by omega
  obtain ⟨e, he⟩ : ∃ e, m.dirListing[m.lineNumber.toNat]? = Option.some e :=
    ⟨_, List.getElem?_eq_getElem hlt⟩
  have hgi : goIndex m.dirListing m.lineNumber = Option.some e := by
    simp [goIndex, hnneg, he]
  have hne : ¬(e = "..") := fun hcon => h3 (by rw [hgi, hcon])
  have hdap : dirAtPoint m = Option.some (m.currentDir ++ [e]) := by
    simp [dirAtPoint, hgi, goJoin, hne]
  have hln0 : ¬(m.lineNumber = 0) := by omega
  simp [runSt, runO, update, exploreOp, backOp, applyListing, okModel, hdap,
    hln0, parentDir, List.dropLast_concat]

/-- A loaded state for the C7 witness: home listing ["..", "a"] with
the cursor on "a". -/
def c7w : Model :=
  { newModel 1 ["h"] with dirListing := ["..", "a"], lineNumber := 1 }

/-- Witness for C7. -/
theorem C7_witness :
    (0 : Int) < c7w.lineNumber ∧ c7w.lineNumber < (c7w.dirListing.length : Int) ∧
      goIndex c7w.dirListing c7w.lineNumber ≠ Option.some ".." ∧
      ((runSt c7w [Msg.key Key.explore, Msg.readDirMsg c7w.id [".."], Msg.key Key.back,
            Msg.readDirMsg c7w.id c7w.dirListing]).map
          fun s => (s.lineNumber, s.currentDir, s.dirListing)) =
        Option.some (c7w.lineNumber, c7w.currentDir, c7w.dirListing) :=
  ⟨by decide, by decide, by decide,
   C7_round_trip c7w [".."] (by decide) (by decide) (by decide)⟩

/-- A directory-entry name as produced by os.ReadDir: never empty and
never the special entries "." or "..". Entry names contain no path
separator either; in this embedding that is implicit, because a Path
component is a single atomic string. -/
def PlainName (s : String) : Prop :=
  s ≠ "" ∧ s ≠ "." ∧ s ≠ ".."

instance (s : String) : Decidable (PlainName s) := by
  unfold PlainName
  infer_instance

/-- A listing as produced by the readDir command: the sentinel ".."
first, followed by plain directory-entry names. -/
def GoodEntries (es : List String) : Prop :=
  es.head? = Option.some ".." ∧ ∀ e ∈ es.tail, PlainName e

instance (es : List String) : Decidable (GoodEntries es) := by
  unfold GoodEntries
  infer_instance

/-- The messages allowed in claim C8: descend/ascend and cursor keys
(everything except the two jump actions, which C8 excludes), load
failures, and load completions whose entries have the shape the
directory lister produces. -/
def NavMsg : Msg → Prop
  | Msg.readDirMsg _ es => GoodEntries es
  | Msg.key (Key.jump _) => False
  | Msg.key Key.jumpToHome => False
  | _ => True

/-- The navigation invariant: the current directory extends the root
by exactly as many components as the breadcrumb stack has entries, and
the listing is either still the initial empty one or lister-shaped. -/
def NavInv (root : Path) (m : Model) : Prop :=
  (∃ t : Path, m.currentDir = root ++ t ∧ t.length = m.lineNumberStack.length) ∧
    (m.dirListing = [] ∨ GoodEntries m.dirListing)

lemma goIndex_some {α : Type} (xs : List α) (i : Int) (a : α)
    (h : goIndex xs i = Option.some a) : 0 ≤ i ∧ xs[i.toNat]? = Option.some a := by
  unfold goIndex at h
  by_cases hi : i < 0
  · rw [if_pos hi] at h
    exact absurd h (by simp)
  · rw [if_neg hi] at h
    exact ⟨by omega, by simpa using h⟩

lemma goodEntries_getElem_ne {es : List String} (hg : GoodEntries es) (k : Nat)
    (e : String) (hk : 1 ≤ k) (he : es[k]? = Option.some e) : ¬(e = "..") := by
  obtain ⟨hh, ht⟩ := hg
  cases es with
  | nil => simp at he
  | cons hd tl =>
    have hmem : e ∈ tl := by
      cases k with
      | zero => omega
      | succ k' =>
        have h' : tl[k']? = Option.some e := by simpa using he
        exact List.getElem?_mem h'
    have hp : PlainName e := ht e (by simpa using hmem)
    exact hp.2.2

/-- backOp preserves the navigation invariant: it pops one stack entry
and drops one component of the current directory. -/
lemma navInv_backOp (root : Path) (m m' : Model) (c : Cmd) (t : Path)
    (hct : m.currentDir = root ++ t) (hlt : t.length = m.lineNumberStack.length)
    (hlist : m.dirListing = [] ∨ GoodEntries m.dirListing)
    (hs : backOp m = Outcome.ok m' c) : NavInv root m' := by
  cases hstk : m.lineNumberStack with
  | nil => simp [backOp, hstk] at hs
  | cons v rest =>
    simp only [backOp, hstk, Outcome.ok.injEq] at hs
    obtain ⟨h1, -⟩ := hs
    subst h1
    have hlen : t.length = rest.length + 1 := by
      rw [hlt, hstk]
      simp
    have htne : t ≠ [] := by
      intro h0
      rw [h0] at hlen
      simp at hlen
    have hdrop : (root ++ t).dropLast = root ++ t.dropLast := by
      conv_lhs => rw [← List.dropLast_append_getLast htne, ← List.append_assoc]
      exact List.dropLast_concat
    refine ⟨⟨t.dropLast, ?_, ?_⟩, hlist⟩
    · show parentDir m.currentDir = root ++ t.dropLast
      rw [hct]
      exact hdrop
    · show t.dropLast.length = rest.length
      rw [List.length_dropLast]
      omega

/-- One navigation step preserves the navigation invariant. -/
lemma navInv_step (root : Path) (m m' : Model) (msg : Msg) (c : Cmd)
    (hi : NavInv root m) (hn : NavMsg msg) (hs : update m msg = Outcome.ok m' c) :
    NavInv root m' := by
  obtain ⟨⟨t, hct, hlt⟩, hlist⟩ := hi
  cases msg with
  | readDirMsg i es =>
    have hg : GoodEntries es := hn
    simp only [update] at hs
    split at hs <;> simp only [Outcome.ok.injEq] at hs <;>
      obtain ⟨h1, -⟩ := hs <;> subst h1
    · exact ⟨⟨t, hct, hlt⟩, Or.inr hg⟩
    · exact ⟨⟨t, hct, hlt⟩, hlist⟩
  | errMsg =>
    simp only [update, Outcome.ok.injEq] at hs
    obtain ⟨h1, -⟩ := hs
    subst h1
    exact ⟨⟨t, hct, hlt⟩, hlist⟩
  | key k =>
    cases k with
    | back =>
      simp only [update] at hs
      by_cases hc : m.lineNumberStack.length = 0
      · rw [if_pos hc] at hs
        simp only [Outcome.ok.injEq] at hs
        obtain ⟨h1, -⟩ := hs
        subst h1
        exact ⟨⟨t, hct, hlt⟩, hlist⟩
      · rw [if_neg hc] at hs
        exact navInv_backOp root m m' c t hct hlt hlist hs
    | down =>
      simp only [update, Outcome.ok.injEq] at hs
      obtain ⟨h1, -⟩ := hs
      subst h1
      have h3 : (downStep m).currentDir = m.currentDir ∧
          (downStep m).lineNumberStack = m.lineNumberStack ∧
          (downStep m).dirListing = m.dirListing := by
        simp only [downStep]
        split_ifs <;> exact ⟨rfl, rfl, rfl⟩
      refine ⟨⟨t, ?_, ?_⟩, ?_⟩
      · rw [h3.1]; exact hct
      · rw [h3.2.1]; exact hlt
      · rw [h3.2.2]; exact hlist
    | explore =>
      simp only [update] at hs
      by_cases hc1 : m.lineNumber = 0 ∧ m.lineNumberStack.length = 0
      · rw [if_pos hc1] at hs
        simp only [Outcome.ok.injEq] at hs
        obtain ⟨h1, -⟩ := hs
        subst h1
        exact ⟨⟨t, hct, hlt⟩, hlist⟩
      · rw [if_neg hc1] at hs
        by_cases hc2 : m.lineNumber = 0
        · rw [if_pos hc2] at hs
          exact navInv_backOp root m m' c t hct hlt hlist hs
        · rw [if_neg hc2] at hs
          cases hap : dirAtPoint m with
          | none => simp [exploreOp, hap] at hs
          | some dir =>
            simp only [exploreOp, hap, Outcome.ok.injEq] at hs
            obtain ⟨h1, -⟩ := hs
            subst h1
            simp only [dirAtPoint] at hap
            cases hgi : goIndex m.dirListing m.lineNumber with
            | none =>
              rw [hgi] at hap
              simp at hap
            | some e =>
              rw [hgi] at hap
              simp at hap
              obtain ⟨hge0, hget⟩ := goIndex_some _ _ _ hgi
              have hglist : GoodEntries m.dirListing := by
                rcases hlist with h0 | hg
                · rw [h0] at hget
                  simp at hget
                · exact hg
              have hk : 1 ≤ m.lineNumber.toNat := by omega
              have hene : ¬(e = "..") := goodEntries_getElem_ne hglist _ e hk hget
              have hjoin : goJoin m.currentDir e = m.currentDir ++ [e] := by
                simp [goJoin, hene]
              refine ⟨⟨t ++ [e], ?_, ?_⟩, ?_⟩
              · show dir = root ++ (t ++ [e])
                rw [← hap, hjoin, hct, List.append_assoc]
              · show (t ++ [e]).length = (m.lineNumber :: m.lineNumberStack).length
                simp [hlt]
              · exact hlist
    | jump d => exact (hn : False).elim
    | jumpToHome => exact (hn : False).elim
    | toggleSelect =>
      simp only [update] at hs
      by_cases hc : m.lineNumber = 0
      · rw [if_pos hc] at hs
        simp only [Outcome.ok.injEq] at hs
        obtain ⟨h1, -⟩ := hs
        subst h1
        exact ⟨⟨t, hct, hlt⟩, hlist⟩
      · rw [if_neg hc] at hs
        cases hap : dirAtPoint m with
        | none => simp [hap] at hs
        | some dir =>
          rw [hap] at hs
          simp only [Outcome.ok.injEq] at hs
          obtain ⟨h1, -⟩ := hs
          subst h1
          exact ⟨⟨t, hct, hlt⟩, hlist⟩
    | up =>
      simp only [update, Outcome.ok.injEq] at hs
      obtain ⟨h1, -⟩ := hs
      subst h1
      have h3 : (upStep m).currentDir = m.currentDir ∧
          (upStep m).lineNumberStack = m.lineNumberStack ∧
          (upStep m).dirListing = m.dirListing := by
        simp only [upStep]
        split_ifs <;> exact ⟨rfl, rfl, rfl⟩
      refine ⟨⟨t, ?_, ?_⟩, ?_⟩
      · rw [h3.1]; exact hct
      · rw [h3.2.1]; exact hlt
      · rw [h3.2.2]; exact hlist
    | quit =>
      simp only [update, Outcome.ok.injEq] at hs
      obtain ⟨h1, -⟩ := hs
      subst h1
      exact ⟨⟨t, hct, hlt⟩, hlist⟩

/-- The navigation invariant holds in every state reachable by
navigation messages from a fresh model rooted at root. -/
lemma navInv_reach (root : Path) (i : Int) (m : Model)
    (h : ReachP NavMsg (newModel i root) m) : NavInv root m := by
  induction h with
  | refl => exact ⟨⟨[], by simp [newModel], by simp [newModel]⟩, Or.inl rfl⟩
  | tail h hp hs ih => exact navInv_step _ _ _ _ _ ih hp hs

/-- Every readDir command an update step issues targets the post-state
current directory. -/
lemma readDir_cmd_target (m m' : Model) (msg : Msg) (p : Path)
    (hs : update m msg = Outcome.ok m' (Cmd.readDir p)) : m'.currentDir = p := by
  cases msg with
  | readDirMsg i es =>
    simp only [update] at hs
    split at hs <;> simp only [Outcome.ok.injEq] at hs <;>
      obtain ⟨-, h2⟩ := hs <;> exact Cmd.noConfusion h2
  | errMsg =>
    simp only [update, Outcome.ok.injEq] at hs
    exact Cmd.noConfusion hs.2
  | key k =>
    cases k with
    | back =>
      simp only [update] at hs
      by_cases hc : m.lineNumberStack.length = 0
      · rw [if_pos hc] at hs
        simp only [Outcome.ok.injEq] at hs
        exact Cmd.noConfusion hs.2
      · rw [if_neg hc] at hs
        cases hstk : m.lineNumberStack with
        | nil => simp [backOp, hstk] at hs
        | cons v rest =>
          simp only [backOp, hstk, Outcome.ok.injEq, Cmd.readDir.injEq] at hs
          obtain ⟨h1, h2⟩ := hs
          subst h1
          exact h2
    | down =>
      simp only [update, Outcome.ok.injEq] at hs
      exact Cmd.noConfusion hs.2
    | explore =>
      simp only [update] at hs
      by_cases hc1 : m.lineNumber = 0 ∧ m.lineNumberStack.length = 0
      · rw [if_pos hc1] at hs
        simp only [Outcome.ok.injEq] at hs
        exact Cmd.noConfusion hs.2
      · rw [if_neg hc1] at hs
        by_cases hc2 : m.lineNumber = 0
        · rw [if_pos hc2] at hs
          cases hstk : m.lineNumberStack with
          | nil => simp [backOp, hstk] at hs
          | cons v rest =>
            simp only [backOp, hstk, Outcome.ok.injEq, Cmd.readDir.injEq] at hs
            obtain ⟨h1, h2⟩ := hs
            subst h1
            exact h2
        · rw [if_neg hc2] at hs
          cases hap : dirAtPoint m with
          | none => simp [exploreOp, hap] at hs
          | some dir =>
            simp only [exploreOp, hap, Outcome.ok.injEq, Cmd.readDir.injEq] at hs
            obtain ⟨h1, h2⟩ := hs
            subst h1
            exact h2
    | jump d =>
      simp only [update] at hs
      cases hg : m.SelectedDirs.get? d with
      | none =>
        rw [hg] at hs
        simp at hs
      | some selection =>
        rw [hg] at hs
        simp only [Outcome.ok.injEq, Cmd.readDir.injEq] at hs
        obtain ⟨h1, h2⟩ := hs
        subst h1
        exact h2
    | jumpToHome =>
      simp only [update, Outcome.ok.injEq, Cmd.readDir.injEq] at hs
      obtain ⟨h1, h2⟩ := hs
      subst h1
      exact h2
    | toggleSelect =>
      simp only [update] at hs
      by_cases hc : m.lineNumber = 0
      · rw [if_pos hc] at hs
        simp only [Outcome.ok.injEq] at hs
        exact Cmd.noConfusion hs.2
      · rw [if_neg hc] at hs
        cases hap : dirAtPoint m with
        | none => simp [hap] at hs
        | some dir =>
          rw [hap] at hs
          simp only [Outcome.ok.injEq] at hs
          exact Cmd.noConfusion hs.2
    | up =>
      simp only [update, Outcome.ok.injEq] at hs
      exact Cmd.noConfusion hs.2
    | quit =>
      simp only [update, Outcome.ok.injEq] at hs
      exact Cmd.noConfusion hs.2

/-- Claim C8. Along any sequence of navigation messages (descend,
ascend, cursor moves, toggles, lister-shaped load completions and load
failures — C8's descend/ascend sequences are a subset) starting from a
fresh model rooted at root, every readDir load request the engine
issues targets a path at or below the root: the path extends the root,
so it is never a proper ancestor of the root. An ascend at the root
(empty stack) takes the no-op branch and issues nothing. -/
theorem C8_never_above_root (root : Path) (i : Int) (m m' : Model) (msg : Msg)
    (p : Path) (hr : ReachP NavMsg (newModel i root) m) (hn : NavMsg msg)
    (hs : update m msg = Outcome.ok m' (Cmd.readDir p)) :
    (∃ t : Path, p = root ++ t) ∧ ¬(p.length < root.length) := by
  have hinv := navInv_reach root i m' (ReachP.tail hr hn hs)
  obtain ⟨⟨t, hct, -⟩, -⟩ := hinv
  have hp := readDir_cmd_target m m' msg p hs
  constructor
  · exact ⟨t, by rw [← hp, hct]⟩
  · rw [← hp, hct]
    simp

/-- The model after the initial load of ["..", "a"]. -/
def c8m1 : Model := applyListing (newModel 1 ["h"]) ["..", "a"]

/-- The model after one cursor-down (cursor on "a"). -/
def c8m2 : Model := downStep c8m1

/-- The model after descending into "a". -/
def c8m3 : Model :=
  { c8m2 with currentDir := ["h", "a"], lineNumberStack := [1], lineNumber := 0 }

/-- Witness for C8: from the reachable state c8m2, a descend issues a
load for /h/a, which extends the root /h. -/
theorem C8_witness :
    (∃ t : Path, (["h", "a"] : Path) = ["h"] ++ t) ∧
      ¬((["h", "a"] : Path).length < (["h"] : Path).length) := by
  have hn1 : NavMsg (Msg.readDirMsg 1 ["..", "a"]) :=
    show GoodEntries ["..", "a"] by decide
  have hn2 : NavMsg (Msg.key Key.down) := show True from trivial
  have hn3 : NavMsg (Msg.key Key.explore) := show True from trivial
  have hs1 : update (newModel 1 ["h"]) (Msg.readDirMsg 1 ["..", "a"]) =
      Outcome.ok c8m1 Cmd.none := by decide
  have hs2 : update c8m1 (Msg.key Key.down) = Outcome.ok c8m2 Cmd.none := by decide
  have hs3 : update c8m2 (Msg.key Key.explore) =
      Outcome.ok c8m3 (Cmd.readDir ["h", "a"]) := by decide
  have hr : ReachP NavMsg (newModel 1 ["h"]) c8m2 :=
    ReachP.tail (ReachP.tail ReachP.refl hn1 hs1) hn2 hs2
  exact C8_never_above_root ["h"] 1 c8m2 c8m3 (Msg.key Key.explore) ["h", "a"]
    hr hn3 hs3

end Dirselect
